import Mathlib

/-!
Verification of the CloudForge agent Session Relay (src/src/terminal.ts,
src/src/websocket.ts) against its natural-language specification.

The TypeScript source is shallowly embedded: classes become structures,
mutating methods become functions from the old state to the new state,
JavaScript `Map` objects become association lists in insertion order, and
the per-session callback arrays become lists of abstract subscriber
tokens.  Timestamps (`Date.now()`) are threaded as explicit `Nat`
parameters.  JavaScript string `.length` is modelled by `String.length`.
-/

namespace CloudForge

/-- Embeds `ScrollbackBuffer` (terminal.ts lines 18-46).  `buffer` holds
the retained chunks with the OLDEST chunk at the head (JS `push` appends
at the tail, `shift` removes from the head). -/
structure ScrollbackBuffer where
  buffer : List String
  totalSize : Nat
  maxSize : Nat
  deriving DecidableEq, Repr

/-- The constructor `new ScrollbackBuffer(maxSize)`; the source default is
`100 * 1024`. -/
def ScrollbackBuffer.init (maxSize : Nat := 100 * 1024) : ScrollbackBuffer :=
  { buffer := [], totalSize := 0, maxSize := maxSize }

/-- The `while` loop of `ScrollbackBuffer.write` (terminal.ts lines
32-35): while the running total exceeds `maxSize` and more than one chunk
remains, shift the oldest chunk off the front and subtract its length. -/
def trimFront : List String → Nat → Nat → List String × Nat
  | [], total, _ => ([], total)
  | c :: rest, total, maxSize =>
    if total > maxSize && !rest.isEmpty then
      trimFront rest (total - c.length) maxSize
    else
      (c :: rest, total)

/-- Embeds `ScrollbackBuffer.write` (terminal.ts lines 27-36): push the
chunk, add its length to the running total, then trim whole chunks from
the front while over the limit. -/
def ScrollbackBuffer.write (b : ScrollbackBuffer) (data : String) : ScrollbackBuffer :=
  let pushed := b.buffer ++ [data]
  let total := b.totalSize + data.length
  let trimmed := trimFront pushed total b.maxSize
  { b with buffer := trimmed.1, totalSize := trimmed.2 }

/-- Embeds `ScrollbackBuffer.getContents` (terminal.ts lines 38-40):
`this.buffer.join` with the empty separator. -/
def ScrollbackBuffer.getContents (b : ScrollbackBuffer) : String :=
  String.join b.buffer

/-- Embeds `ScrollbackBuffer.clear` (terminal.ts lines 42-45). -/
def ScrollbackBuffer.clear (b : ScrollbackBuffer) : ScrollbackBuffer :=
  { b with buffer := [], totalSize := 0 }

/-- Writes a whole sequence of chunks, in order, into the buffer. -/
def ScrollbackBuffer.writeAll (b : ScrollbackBuffer) (cs : List String) : ScrollbackBuffer :=
  cs.foldl ScrollbackBuffer.write b

/-- An operation on a `ScrollbackBuffer`: either a `write` of a chunk or a
`clear`. -/
inductive BufOp where
  | write (data : String)
  | clear
  deriving DecidableEq, Repr

/-- Applies a sequence of buffer operations, in order. -/
def ScrollbackBuffer.applyOps (b : ScrollbackBuffer) (ops : List BufOp) : ScrollbackBuffer :=
  ops.foldl (fun b op => match op with
    | .write data => b.write data
    | .clear => b.clear) b

/-- Sum of the lengths of a list of chunks. -/
def sumLens (l : List String) : Nat :=
  (l.map String.length).sum

/-- Well-formedness of a buffer state: the `totalSize` field agrees with
the actual retained data.  This holds in every reachable state. -/
def ScrollbackBuffer.WF (b : ScrollbackBuffer) : Prop :=
  b.totalSize = sumLens b.buffer

/-- A subscriber token: stands for one callback closure registered via
`onData` or `onExit` of a session. -/
abbrev Subscriber := Nat

/-- Embeds the TypeScript union type of `TerminalSession.state`. -/
inductive SessionState where
  | attached
  | detached
  deriving DecidableEq, Repr

/-- Embeds a `TerminalSession` object (terminal.ts lines 60-77 and the
construction at lines 116-178).  The `pty` process handle is not carried;
the `dataCallbacks` and `exitCallbacks` arrays captured by the PTY event
closures become lists of subscriber tokens. -/
structure Session where
  sessionId : String
  state : SessionState
  scrollback : ScrollbackBuffer
  createdAt : Nat
  detachedAt : Option Nat
  shell : String
  cols : Nat
  rows : Nat
  idleTimeoutMs : Nat
  dataCallbacks : List Subscriber
  exitCallbacks : List Subscriber
  deriving DecidableEq, Repr

/-- Embeds `session.clearDataCallbacks` (terminal.ts lines 175-177):
`dataCallbacks.length = 0` empties the array in place. -/
def Session.clearDataCallbacks (s : Session) : Session :=
  { s with dataCallbacks := [] }

/-- Embeds `session.onData` (terminal.ts lines 152-154): pushes a callback
onto the array. -/
def Session.onData (s : Session) (cb : Subscriber) : Session :=
  { s with dataCallbacks := s.dataCallbacks ++ [cb] }

/-- Embeds `session.onExit` (terminal.ts lines 155-157). -/
def Session.onExit (s : Session) (cb : Subscriber) : Session :=
  { s with exitCallbacks := s.exitCallbacks ++ [cb] }

/-- Embeds `session.resize` (terminal.ts lines 161-168): records the new
dimensions on the session (the PTY side effect is external). -/
def Session.resize (s : Session) (cols rows : Nat) : Session :=
  { s with cols := cols, rows := rows }

/-- Embeds the `ptyProcess.onData` closure wired at spawn time
(terminal.ts lines 122-128): the chunk is always written to the scrollback
regardless of attachment state, then every callback currently in
`dataCallbacks` is invoked with it.  Returns the updated session object
and the list of (subscriber, chunk) deliveries. -/
def Session.ptyOutput (s : Session) (data : String) : Session × List (Subscriber × String) :=
  ({ s with scrollback := s.scrollback.write data },
   s.dataCallbacks.map (fun cb => (cb, data)))

/-- Embeds the `ptyProcess.onExit` closure wired at spawn time
(terminal.ts lines 131-138): every callback currently in `exitCallbacks`
is invoked with the exit code. -/
def Session.ptyExit (s : Session) (exitCode : Nat) : List (Subscriber × Nat) :=
  s.exitCallbacks.map (fun cb => (cb, exitCode))

/-!
The `sessions` JavaScript `Map` of `TerminalManager` is embedded as an
association list in insertion order.  A `Map` holds at most one entry per
key, so every reachable list has pairwise distinct keys; the operations
below are defined to agree with the `Map` operations on all such lists
(`set` of a fresh key appends, `get` returns the entry, `delete` removes
it).
-/

/-- `Map.get`: first entry with the given key. -/
def lookupSession : List (String × Session) → String → Option Session
  | [], _ => none
  | (k, s) :: rest, sid => if k = sid then some s else lookupSession rest sid

/-- In-place mutation of the session object held under a key. -/
def updateSession : List (String × Session) → String → (Session → Session) →
    List (String × Session)
  | [], _, _ => []
  | (k, s) :: rest, sid, f =>
    if k = sid then (k, f s) :: updateSession rest sid f
    else (k, s) :: updateSession rest sid f

/-- `Map.delete`: removes the entry with the given key. -/
def removeSession : List (String × Session) → String → List (String × Session)
  | [], _ => []
  | (k, s) :: rest, sid =>
    if k = sid then removeSession rest sid else (k, s) :: removeSession rest sid

/-- Embeds the `TerminalManager` registry state (terminal.ts line 80). -/
structure TerminalManager where
  sessions : List (String × Session)
  deriving DecidableEq, Repr

/-- The registry at agent start: an empty map. -/
def TerminalManager.empty : TerminalManager := { sessions := [] }

/-- Embeds `TerminalManager.get` (terminal.ts lines 260-262). -/
def TerminalManager.get (m : TerminalManager) (sessionId : String) : Option Session :=
  lookupSession m.sessions sessionId

/-- Embeds `TerminalManager.has` (terminal.ts lines 267-269). -/
def TerminalManager.has (m : TerminalManager) (sessionId : String) : Bool :=
  (lookupSession m.sessions sessionId).isSome

/-- The error thrown by `spawn` on a duplicate session id (terminal.ts
lines 94-96). -/
inductive SpawnError where
  | duplicateSession (sessionId : String)
  deriving DecidableEq, Repr

/-- Embeds `TerminalManager.spawn` (terminal.ts lines 93-182).  The throw
on a duplicate id happens before any mutation, so the registry component
of the result is the input registry in that case.  `idleTimeoutMs || 0`
becomes `Option.getD 0`; `Date.now()` is the explicit `now` parameter; the
`cwd` argument only feeds the external PTY spawn. -/
def TerminalManager.spawn (m : TerminalManager) (sessionId shell : String)
    (cols rows : Nat) (_cwd : Option String) (idleTimeoutMs : Option Nat) (now : Nat) :
    TerminalManager × Except SpawnError Session :=
  if (lookupSession m.sessions sessionId).isSome then
    (m, .error (.duplicateSession sessionId))
  else
    let session : Session := {
      sessionId := sessionId
      state := .attached
      scrollback := ScrollbackBuffer.init (100 * 1024)
      createdAt := now
      detachedAt := none
      shell := shell
      cols := cols
      rows := rows
      idleTimeoutMs := idleTimeoutMs.getD 0
      dataCallbacks := []
      exitCallbacks := [] }
    ({ sessions := m.sessions ++ [(sessionId, session)] }, .ok session)

/-- Embeds `TerminalManager.detach` (terminal.ts lines 187-199): if the
session is absent return false; otherwise set state to detached, record
`detachedAt = Date.now()`, clear the data callbacks, and return true. -/
def TerminalManager.detach (m : TerminalManager) (sessionId : String) (now : Nat) :
    Bool × TerminalManager :=
  match lookupSession m.sessions sessionId with
  | none => (false, m)
  | some _ =>
    (true, { sessions := updateSession m.sessions sessionId (fun s =>
      ({ s with state := .detached, detachedAt := some now }).clearDataCallbacks) })

/-- Embeds `TerminalManager.reattach` (terminal.ts lines 204-215): if the
session is absent return none; otherwise set state to attached, clear
`detachedAt`, and return the scrollback contents. -/
def TerminalManager.reattach (m : TerminalManager) (sessionId : String) :
    Option String × TerminalManager :=
  match lookupSession m.sessions sessionId with
  | none => (none, m)
  | some s =>
    (some s.scrollback.getContents,
     { sessions := updateSession m.sessions sessionId (fun s =>
        { s with state := .attached, detachedAt := none }) })

/-- Embeds `TerminalManager.kill` (terminal.ts lines 281-289): if present,
signal the process (external effect) and delete the entry, returning true;
otherwise return false. -/
def TerminalManager.kill (m : TerminalManager) (sessionId : String) :
    Bool × TerminalManager :=
  match lookupSession m.sessions sessionId with
  | some _ => (true, { sessions := removeSession m.sessions sessionId })
  | none => (false, m)

/-- The condition of `cleanupIdleSessions` (terminal.ts lines 242-247).
JavaScript `session.detachedAt &&` is falsy both for null and for the
number 0, hence the explicit `t ≠ 0` conjunct; `now - session.detachedAt >
session.idleTimeoutMs` agrees with truncated `Nat` subtraction here
because a negative difference never exceeds the positive
`idleTimeoutMs`. -/
def reapCondition (s : Session) (now : Nat) : Bool :=
  s.state == SessionState.detached &&
  decide (0 < s.idleTimeoutMs) &&
  (match s.detachedAt with
   | none => false
   | some t => decide (t ≠ 0) && decide (s.idleTimeoutMs < now - t))

/-- Embeds `TerminalManager.cleanupIdleSessions` (terminal.ts lines
239-255): one tick of the idle reaper at time `now` kills and removes
every session matching `reapCondition`. -/
def TerminalManager.cleanupIdleSessions (m : TerminalManager) (now : Nat) : TerminalManager :=
  { sessions := m.sessions.filter (fun p => !reapCondition p.2 now) }

/-- Outbound transport messages relevant to the terminal handlers. -/
inductive OutMsg where
  | terminalError (sessionId : String) (error : String)
  | terminalScrollback (sessionId : String) (data : String)
  deriving DecidableEq, Repr

/-- Embeds the `terminal:reattach` handler (websocket.ts lines 268-311):
call `reattach`; on failure emit a terminal error; on success emit the
scrollback, then re-fetch the session, clear its data callbacks, register
one fresh forwarding callback `cb`, and resize when the message carries
truthy dimensions (`if (msg.cols and msg.rows)`: present and nonzero). -/
def handleReattach (m : TerminalManager) (sessionId : String)
    (colsQ rowsQ : Option Nat) (cb : Subscriber) : TerminalManager × List OutMsg :=
  match m.reattach sessionId with
  | (none, m1) => (m1, [.terminalError sessionId "Session not found"])
  | (some sb, m1) =>
    match m1.get sessionId with
    | none => (m1, [.terminalScrollback sessionId sb])
    | some _ =>
      let m2 : TerminalManager := { sessions := updateSession m1.sessions sessionId (fun s =>
        let s1 := (s.clearDataCallbacks).onData cb
        if colsQ.getD 0 ≠ 0 && rowsQ.getD 0 ≠ 0 then
          s1.resize (colsQ.getD 0) (rowsQ.getD 0)
        else s1) }
      (m2, [.terminalScrollback sessionId sb])

/-- Embeds the connection state of `WebSocketManager` (websocket.ts lines
14-29): `isConnected`, `reconnectAttempts`, and whether the heartbeat
ticker is running. -/
structure ConnState where
  isConnected : Bool
  reconnectAttempts : Nat
  heartbeatRunning : Bool
  deriving DecidableEq, Repr

/-- Messages the connection handlers emit to the transport. -/
inductive ConnMsg where
  | systemInfo
  | heartbeat
  deriving DecidableEq, Repr

/-- Disconnect reasons distinguished by the source (websocket.ts lines
76-95). -/
inductive DisconnectReason where
  | ioServerDisconnect
  | ioClientDisconnect
  | transportClose
  deriving DecidableEq, Repr

/-- Socket lifecycle events delivered to listeners registered on the
socket object.  With the socket.io v4 client API the source uses (the
named binding io of the socket.io-client package), the reserved lifecycle
events a Socket listener receives are connect, connect_error and
disconnect; reconnect is a Manager-level event, so the reconnect handler
the source registers on the socket is never invoked, and every successful
connection or reconnection is delivered as exactly one connect event. -/
inductive SocketEvent where
  | connect
  | connectError
  | disconnect (reason : DisconnectReason)
  deriving DecidableEq, Repr

/-- Embeds the connect handler (websocket.ts lines 51-63): set connected,
reset the attempt counter, send one system:info, start the heartbeat. -/
def onConnect (st : ConnState) : ConnState × List ConnMsg :=
  ({ st with isConnected := true, reconnectAttempts := 0, heartbeatRunning := true },
   [ConnMsg.systemInfo])

/-- Embeds the connect_error handler (websocket.ts lines 65-74): count the
attempt; emits nothing to the transport. -/
def onConnectError (st : ConnState) : ConnState × List ConnMsg :=
  ({ st with reconnectAttempts := st.reconnectAttempts + 1 }, [])

/-- Embeds the disconnect handler (websocket.ts lines 76-95): mark
disconnected and stop the heartbeat; the delayed manual reconnect emits
nothing itself. -/
def onDisconnect (st : ConnState) (_reason : DisconnectReason) : ConnState × List ConnMsg :=
  ({ st with isConnected := false, heartbeatRunning := false }, [])

/-- Embeds the reconnect handler (websocket.ts lines 97-101).  Registered
on the socket, where the v4 client never delivers a reconnect lifecycle
event, so `connStep` has no transition for it. -/
def onReconnect (st : ConnState) : ConnState × List ConnMsg :=
  ({ st with heartbeatRunning := true }, [ConnMsg.systemInfo])

/-- Dispatch of one delivered socket lifecycle event. -/
def connStep (st : ConnState) : SocketEvent → ConnState × List ConnMsg
  | .connect => onConnect st
  | .connectError => onConnectError st
  | .disconnect r => onDisconnect st r

/-- Runs a trace of delivered socket events, collecting every emitted
message in order. -/
def runConn (st : ConnState) : List SocketEvent → ConnState × List ConnMsg
  | [] => (st, [])
  | e :: rest =>
    let step := connStep st e
    let tail := runConn step.1 rest
    (tail.1, step.2 ++ tail.2)

/-- Number of system:info announcements in an emission log. -/
def countSystemInfo (msgs : List ConnMsg) : Nat :=
  (msgs.filter (fun msg => msg == ConnMsg.systemInfo)).length

/-- Number of entries into the Connected state in a trace: one per
delivered connect event. -/
def countConnects (events : List SocketEvent) : Nat :=
  (events.filter (fun e => e == SocketEvent.connect)).length

/-- A concrete attached session used to instantiate theorems: scrollback
holds one chunk, one data callback and one exit callback are registered
(as the spawn handler of websocket.ts lines 167-183 does). -/
def sampleAttached : Session := {
  sessionId := "s1"
  state := .attached
  scrollback := (ScrollbackBuffer.init (100 * 1024)).write "hi"
  createdAt := 1
  detachedAt := none
  shell := "/bin/sh"
  cols := 80
  rows := 24
  idleTimeoutMs := 0
  dataCallbacks := [0]
  exitCallbacks := [1] }

/-- A concrete detached session: detached at time 100 with a 50ms idle
timeout. -/
def sampleDetached : Session :=
  { sampleAttached with
      state := .detached
      detachedAt := some 100
      idleTimeoutMs := 50
      dataCallbacks := [] }

/-- A registry holding the attached sample session. -/
def sampleManagerA : TerminalManager := { sessions := [("s1", sampleAttached)] }

/-- A registry holding the detached sample session. -/
def sampleManagerD : TerminalManager := { sessions := [("s1", sampleDetached)] }

-- Basic lemmas about `sumLens` and `String.join`.

theorem sumLens_nil : sumLens [] = 0 := rfl

theorem sumLens_cons (c : String) (l : List String) :
    sumLens (c :: l) = c.length + sumLens l := by
  simp [sumLens]

theorem sumLens_append (l₁ l₂ : List String) :
    sumLens (l₁ ++ l₂) = sumLens l₁ + sumLens l₂ := by
  simp [sumLens]

theorem foldl_string_append_init (l : List String) (s : String) :
    l.foldl (fun r t => r ++ t) s = s ++ l.foldl (fun r t => r ++ t) "" := by
  induction l generalizing s with
  | nil => simp
  | cons c rest ih =>
    simp only [List.foldl_cons]
    rw [ih (s ++ c), ih (("" : String) ++ c)]
    simp [String.append_assoc]

theorem string_join_cons (c : String) (l : List String) :
    String.join (c :: l) = c ++ String.join l := by
  simp only [String.join, List.foldl_cons]
  rw [foldl_string_append_init l (("" : String) ++ c)]
  simp

theorem length_string_join (l : List String) :
    (String.join l).length = sumLens l := by
  induction l with
  | nil => rfl
  | cons c rest ih => rw [string_join_cons, String.length_append, ih, sumLens_cons]

-- Lemmas about the trimming loop.

/-- `trimFront` only drops whole chunks from the front: its result is a
drop of the input list. -/
theorem trimFront_drop (buf : List String) (total maxSize : Nat) :
    ∃ k, (trimFront buf total maxSize).1 = buf.drop k := by
  induction buf generalizing total with
  | nil => exact ⟨0, rfl⟩
  | cons c rest ih =>
    by_cases h : total > maxSize && !rest.isEmpty
    · obtain ⟨k, hk⟩ := ih (total - c.length)
      exact ⟨k + 1, by simp [trimFront, h, hk]⟩
    · exact ⟨0, by simp [trimFront, h]⟩

/-- `trimFront` keeps the running total in sync with the retained
chunks. -/
theorem trimFront_wf (buf : List String) (total maxSize : Nat)
    (h : total = sumLens buf) :
    (trimFront buf total maxSize).2 = sumLens (trimFront buf total maxSize).1 := by
  induction buf generalizing total with
  | nil => simpa [trimFront] using h
  | cons c rest ih =>
    by_cases hc : total > maxSize && !rest.isEmpty
    · have hrest : total - c.length = sumLens rest := by
        rw [h, sumLens_cons]; omega
      simpa [trimFront, hc] using ih (total - c.length) hrest
    · simpa [trimFront, hc] using h

/-- When the loop finishes, either the total is within the cap or a single
chunk remains. -/
theorem trimFront_bound (buf : List String) (total maxSize : Nat)
    (hne : buf ≠ []) :
    (trimFront buf total maxSize).2 ≤ maxSize ∨
      (trimFront buf total maxSize).1.length = 1 := by
  induction buf generalizing total with
  | nil => exact absurd rfl hne
  | cons c rest ih =>
    by_cases hc : total > maxSize && !rest.isEmpty
    · have hrest : rest ≠ [] := by
        simp only [Bool.and_eq_true, Bool.not_eq_true'] at hc
        exact fun h => by simp [h] at hc
      simpa [trimFront, hc] using ih (total - c.length) hrest
    · simp only [Bool.and_eq_true, Bool.not_eq_true', decide_eq_true_eq] at hc
      rcases Decidable.not_and_iff_or_not.mp hc with h | h
      · left
        simp only [trimFront, Bool.and_eq_true]
        rw [if_neg (by simp only [Bool.and_eq_true, decide_eq_true_eq]; tauto)]
        omega
      · right
        have hrest : rest = [] := by
          cases rest with
          | nil => rfl
          | cons x xs => simp at h
        subst hrest
        simp [trimFront]

/-- If the loop never fires (total within cap), the buffer is returned
unchanged. -/
theorem trimFront_noop (buf : List String) (total maxSize : Nat)
    (h : total ≤ maxSize) :
    trimFront buf total maxSize = (buf, total) := by
  cases buf with
  | nil => rfl
  | cons c rest =>
    simp [trimFront, Nat.not_lt.mpr h]

/-- A nonempty drop of `l ++ [c]` of length 1 is exactly `[c]`. -/
theorem drop_append_singleton_len_one (l : List String) (c : String) (k : Nat)
    (h : ((l ++ [c]).drop k).length = 1) :
    (l ++ [c]).drop k = [c] := by
  by_cases hk : k ≤ l.length
  · rw [List.drop_append_of_le_length hk] at h ⊢
    have : (l.drop k).length = 0 := by
      rw [List.length_append] at h
      simp at h ⊢
      omega
    rw [List.length_eq_zero] at this
    rw [this, List.nil_append]
  · exfalso
    rw [List.length_drop, List.length_append] at h
    simp at h
    omega

/-- `write` preserves well-formedness of the buffer state. -/
theorem ScrollbackBuffer.write_wf (b : ScrollbackBuffer) (data : String)
    (h : b.WF) : (b.write data).WF := by
  have hpush : b.totalSize + data.length = sumLens (b.buffer ++ [data]) := by
    rw [h, sumLens_append, sumLens_cons, sumLens_nil]; omega
  simpa [ScrollbackBuffer.write, ScrollbackBuffer.WF] using
    trimFront_wf (b.buffer ++ [data]) (b.totalSize + data.length) b.maxSize hpush

/-- `write` preserves the cap field. -/
theorem ScrollbackBuffer.write_maxSize (b : ScrollbackBuffer) (data : String) :
    (b.write data).maxSize = b.maxSize := rfl

/-- `writeAll` preserves well-formedness and the cap field. -/
theorem ScrollbackBuffer.writeAll_wf (cs : List String) (b : ScrollbackBuffer)
    (h : b.WF) : (b.writeAll cs).WF ∧ (b.writeAll cs).maxSize = b.maxSize := by
  induction cs generalizing b with
  | nil => exact ⟨h, rfl⟩
  | cons c rest ih =>
    have := ih (b.write c) (b.write_wf c h)
    simpa [ScrollbackBuffer.writeAll] using this

/-- Core postcondition of a single `write` on a well-formed state: the cap
is respected up to a single-chunk overflow, and retention is a suffix of
the pushed list. -/
theorem ScrollbackBuffer.write_post (b : ScrollbackBuffer) (data : String)
    (h : b.WF) :
    ((b.write data).totalSize ≤ b.maxSize ∨ (b.write data).buffer.length = 1) ∧
    (b.write data).totalSize ≤ b.maxSize + data.length ∧
    (∃ k, (b.write data).buffer = (b.buffer ++ [data]).drop k) := by
  have hpush : b.totalSize + data.length = sumLens (b.buffer ++ [data]) := by
    rw [h, sumLens_append, sumLens_cons, sumLens_nil]; omega
  have hne : b.buffer ++ [data] ≠ [] := by simp
  have hbound := trimFront_bound (b.buffer ++ [data]) (b.totalSize + data.length) b.maxSize hne
  have hwf := trimFront_wf (b.buffer ++ [data]) (b.totalSize + data.length) b.maxSize hpush
  have hdrop := trimFront_drop (b.buffer ++ [data]) (b.totalSize + data.length) b.maxSize
  constructor
  · simpa [ScrollbackBuffer.write] using hbound
  constructor
  · rcases hbound with hle | hone
    · simp only [ScrollbackBuffer.write]
      omega
    · obtain ⟨k, hk⟩ := hdrop
      have hsingle : (trimFront (b.buffer ++ [data]) (b.totalSize + data.length) b.maxSize).1 = [data] := by
        rw [hk] at hone ⊢
        exact drop_append_singleton_len_one b.buffer data k hone
      have : (trimFront (b.buffer ++ [data]) (b.totalSize + data.length) b.maxSize).2 = data.length := by
        rw [hwf, hsingle, sumLens_cons, sumLens_nil]; omega
      simp only [ScrollbackBuffer.write]
      omega
  · simpa [ScrollbackBuffer.write] using hdrop

/-- If every write stays under the cap, no chunk is ever evicted: the
buffer accumulates the chunks verbatim. -/
theorem ScrollbackBuffer.writeAll_no_evict (cs : List String) (b : ScrollbackBuffer)
    (h : b.WF) (hcap : b.totalSize + sumLens cs ≤ b.maxSize) :
    (b.writeAll cs).buffer = b.buffer ++ cs := by
  induction cs generalizing b with
  | nil => simp [ScrollbackBuffer.writeAll]
  | cons c rest ih =>
    have hc : b.totalSize + c.length ≤ b.maxSize := by
      rw [sumLens_cons] at hcap; omega
    have hwrite : b.write c =
        { b with buffer := b.buffer ++ [c], totalSize := b.totalSize + c.length } := by
      simp [ScrollbackBuffer.write, trimFront_noop _ _ _ hc]
    have hwf' : (b.write c).WF := b.write_wf c h
    have hcap' : (b.write c).totalSize + sumLens rest ≤ (b.write c).maxSize := by
      rw [hwrite]
      rw [sumLens_cons] at hcap
      simpa using by omega
    have := ih (b.write c) hwf' hcap'
    rw [ScrollbackBuffer.writeAll, List.foldl_cons] at *
    rw [show (List.foldl ScrollbackBuffer.write (b.write c) rest) = (b.write c).writeAll rest from rfl] at *
    rw [this, hwrite]
    simp

-- Lemmas about the association-list embedding of the session map.

theorem lookupSession_update_self (l : List (String × Session)) (sid : String)
    (f : Session → Session) :
    lookupSession (updateSession l sid f) sid = (lookupSession l sid).map f := by
  induction l with
  | nil => rfl
  | cons p rest ih =>
    obtain ⟨k, s⟩ := p
    by_cases h : k = sid
    · subst h
      simp [updateSession, lookupSession, ih]
    · simp [updateSession, lookupSession, h, ih]

/-- The reduced form used to push a lookup through an in-place update. -/
theorem lookupSession_update_of_some (l : List (String × Session)) (sid : String)
    (f : Session → Session) (s : Session) (h : lookupSession l sid = some s) :
    lookupSession (updateSession l sid f) sid = some (f s) := by
  rw [lookupSession_update_self, h]
  rfl

theorem lookupSession_remove_self (l : List (String × Session)) (sid : String) :
    lookupSession (removeSession l sid) sid = none := by
  induction l with
  | nil => rfl
  | cons p rest ih =>
    obtain ⟨k, s⟩ := p
    by_cases h : k = sid
    · simp [removeSession, h, ih]
    · simp [removeSession, lookupSession, h, ih]

/-- The reaper condition, characterised over genuine (positive)
timestamps. -/
theorem reapCondition_iff (s : Session) (now : Nat)
    (hpos : ∀ t, s.detachedAt = some t → 0 < t) :
    reapCondition s now = true ↔
      (s.state = .detached ∧ 0 < s.idleTimeoutMs ∧
        ∃ t, s.detachedAt = some t ∧ s.idleTimeoutMs < now - t) := by
  unfold reapCondition
  cases hda : s.detachedAt with
  | none => simp [hda]
  | some t =>
    have ht : t ≠ 0 := Nat.pos_iff_ne_zero.mp (hpos t hda)
    simp [hda, ht, and_assoc]

end CloudForge

namespace CloudForge

/-- C2: after every write in an arbitrary write sequence against a buffer
with cap `cap`, the retained total is within the cap or exactly one chunk
remains; the total never exceeds the cap by more than the length of the
chunk just written; and the retained chunks are a drop (whole-chunk
eviction from the oldest end, never splitting a chunk) of the previously
retained chunks followed by the new chunk. -/
theorem scrollback_write_cap_invariant (cap : Nat) (cs : List String) (c : String) :
    ((((ScrollbackBuffer.init cap).writeAll cs).write c).totalSize ≤ cap ∨
      (((ScrollbackBuffer.init cap).writeAll cs).write c).buffer.length = 1) ∧
    (((ScrollbackBuffer.init cap).writeAll cs).write c).totalSize ≤ cap + c.length ∧
    (∃ k, (((ScrollbackBuffer.init cap).writeAll cs).write c).buffer =
      (((ScrollbackBuffer.init cap).writeAll cs).buffer ++ [c]).drop k) := by
  have hinit : (ScrollbackBuffer.init cap).WF := rfl
  obtain ⟨hwf, hmax⟩ := ScrollbackBuffer.writeAll_wf cs (ScrollbackBuffer.init cap) hinit
  have := ScrollbackBuffer.write_post ((ScrollbackBuffer.init cap).writeAll cs) c hwf
  rwa [hmax] at this

/-- C6: writing a sequence of chunks whose total size stays at or under the
cap, then reading the contents, yields exactly the concatenation of the
chunks in arrival order. -/
theorem scrollback_under_cap_lossless (cap : Nat) (cs : List String)
    (h : sumLens cs ≤ cap) :
    ((ScrollbackBuffer.init cap).writeAll cs).getContents = String.join cs := by
  have hinit : (ScrollbackBuffer.init cap).WF := rfl
  have hcap : (ScrollbackBuffer.init cap).totalSize + sumLens cs ≤ (ScrollbackBuffer.init cap).maxSize := by
    simpa [ScrollbackBuffer.init]
  have := ScrollbackBuffer.writeAll_no_evict cs (ScrollbackBuffer.init cap) hinit hcap
  rw [ScrollbackBuffer.getContents, this]
  simp [ScrollbackBuffer.init]

/-- Witness for C6 at a concrete input: writing "ab" then "cd" with cap 10
yields contents "abcd". -/
theorem scrollback_under_cap_lossless_witness :
    ((ScrollbackBuffer.init 10).writeAll ["ab", "cd"]).getContents = String.join ["ab", "cd"] :=
  scrollback_under_cap_lossless 10 ["ab", "cd"] (by decide)

/-- C10: after any sequence of `write` and `clear` operations from a fresh
buffer, the `totalSize` field equals the sum of the lengths of the retained
chunks, and hence equals `getContents().length`. -/
theorem scrollback_totalSize_invariant (cap : Nat) (ops : List BufOp) :
    ((ScrollbackBuffer.init cap).applyOps ops).totalSize =
      sumLens ((ScrollbackBuffer.init cap).applyOps ops).buffer ∧
    ((ScrollbackBuffer.init cap).applyOps ops).totalSize =
      ((ScrollbackBuffer.init cap).applyOps ops).getContents.length := by
  have main : ∀ (ops : List BufOp) (b : ScrollbackBuffer), b.WF → (b.applyOps ops).WF := by
    intro ops
    induction ops with
    | nil => intro b h; exact h
    | cons op rest ih =>
      intro b h
      cases op with
      | write data =>
        have := ih (b.write data) (b.write_wf data h)
        simpa [ScrollbackBuffer.applyOps] using this
      | clear =>
        have hclear : (b.clear).WF := rfl
        have := ih b.clear hclear
        simpa [ScrollbackBuffer.applyOps] using this
  have hwf := main ops (ScrollbackBuffer.init cap) rfl
  refine ⟨hwf, ?_⟩
  rw [ScrollbackBuffer.getContents, length_string_join]
  exact hwf

/-- C1: detach leaves the scrollback of the session untouched, and an
immediately following reattach returns exactly the scrollback contents the
session had before the detach (what `getContents` would have returned had
the session never been detached). -/
theorem detach_then_reattach_lossless (m : TerminalManager) (sid : String)
    (now : Nat) (s : Session) (h : m.get sid = some s) :
    (((m.detach sid now).2.get sid).map Session.scrollback = some s.scrollback) ∧
    ((m.detach sid now).2.reattach sid).1 = some s.scrollback.getContents := by
  have hlook : lookupSession m.sessions sid = some s := h
  have h1 := lookupSession_update_of_some m.sessions sid
    (fun s => ({ s with state := .detached, detachedAt := some now }).clearDataCallbacks) s hlook
  unfold TerminalManager.detach
  rw [hlook]
  constructor
  · unfold TerminalManager.get
    simp only []
    rw [h1]
    simp [Session.clearDataCallbacks]
  · unfold TerminalManager.reattach
    simp only []
    rw [h1]
    simp [Session.clearDataCallbacks]

/-- Witness for C1 at a concrete registry. -/
theorem detach_then_reattach_lossless_witness :
    ((sampleManagerA.detach "s1" 7).2.get "s1").map Session.scrollback =
      some sampleAttached.scrollback ∧
    ((sampleManagerA.detach "s1" 7).2.reattach "s1").1 =
      some sampleAttached.scrollback.getContents :=
  detach_then_reattach_lossless sampleManagerA "s1" 7 sampleAttached (by decide)

/-- C4: spawning with a session id that is already present fails with the
duplicate-session error and returns the registry completely unchanged
(every session, its state and its scrollback included). -/
theorem spawn_duplicate_fails_unchanged (m : TerminalManager) (sid shell : String)
    (cols rows : Nat) (cwd : Option String) (idle : Option Nat) (now : Nat)
    (h : m.has sid = true) :
    m.spawn sid shell cols rows cwd idle now = (m, .error (.duplicateSession sid)) := by
  unfold TerminalManager.has at h
  unfold TerminalManager.spawn
  rw [if_pos h]

/-- Witness for C4 at a concrete registry. -/
theorem spawn_duplicate_fails_unchanged_witness :
    sampleManagerA.spawn "s1" "/bin/sh" 80 24 none none 99 =
      (sampleManagerA, .error (.duplicateSession "s1")) :=
  spawn_duplicate_fails_unchanged sampleManagerA "s1" "/bin/sh" 80 24 none none 99 (by decide)

/-- C5: for genuine (positive) detach timestamps, one reaper tick removes
a session exactly when it is detached with a positive idle timeout that
has expired; in particular a session with idle timeout 0 is kept no matter
how long it has been detached, and an attached session is kept. -/
theorem idle_reaper_removes_exactly (m : TerminalManager) (now : Nat)
    (sid : String) (s : Session)
    (hmem : (sid, s) ∈ m.sessions)
    (hpos : ∀ t, s.detachedAt = some t → 0 < t) :
    ((sid, s) ∉ (m.cleanupIdleSessions now).sessions ↔
      (s.state = .detached ∧ 0 < s.idleTimeoutMs ∧
        ∃ t, s.detachedAt = some t ∧ s.idleTimeoutMs < now - t)) ∧
    (s.idleTimeoutMs = 0 → (sid, s) ∈ (m.cleanupIdleSessions now).sessions) ∧
    (s.state = .attached → (sid, s) ∈ (m.cleanupIdleSessions now).sessions) := by
  refine ⟨?_, ?_, ?_⟩
  · rw [← reapCondition_iff s now hpos]
    unfold TerminalManager.cleanupIdleSessions
    simp [List.mem_filter, hmem]
  · intro h0
    unfold TerminalManager.cleanupIdleSessions
    simp [List.mem_filter, hmem, reapCondition, h0]
  · intro ha
    unfold TerminalManager.cleanupIdleSessions
    simp [List.mem_filter, hmem, reapCondition, ha]

/-- Witness for C5: the sample session detached at time 100 with idle
timeout 50 is removed by a tick at time 200. -/
theorem idle_reaper_removes_exactly_witness :
    ("s1", sampleDetached) ∉ (sampleManagerD.cleanupIdleSessions 200).sessions :=
  (idle_reaper_removes_exactly sampleManagerD 200 "s1" sampleDetached (by decide)
      (fun t ht => by
        simp [sampleDetached, sampleAttached] at ht
        omega)).1.mpr ⟨rfl, by decide, 100, rfl, by decide⟩

/-- C8 counterexample: detach is not idempotent on an already-detached
session.  Detaching the sample session at time 5 and again at time 10
changes the observable `detachedAt` from 5 to 10 (terminal.ts line 196
assigns `Date.now()` unconditionally), so the second detach does not leave
the observable state of the session unchanged. -/
theorem detach_idempotence_counterexample :
    ((((sampleManagerA.detach "s1" 5).2.detach "s1" 10).2.get "s1").map Session.detachedAt) ≠
    (((sampleManagerA.detach "s1" 5).2.get "s1").map Session.detachedAt) := by
  decide

/-- C8 amended: a second detach returns true like the first and leaves the
state, subscriber list and scrollback as the first detach left them, but
refreshes `detachedAt` to the time of the second call; detach on an absent
id returns false and changes nothing. -/
theorem detach_repeat_amended (m : TerminalManager) (sid : String)
    (now now2 : Nat) (s : Session) (h : m.get sid = some s) :
    (m.detach sid now).1 = true ∧
    ((m.detach sid now).2.detach sid now2).1 = true ∧
    ((m.detach sid now).2.detach sid now2).2.get sid =
      some { s with state := .detached, detachedAt := some now2, dataCallbacks := [] } ∧
    (∀ sid2, m.get sid2 = none → m.detach sid2 now = (false, m)) := by
  have hlook : lookupSession m.sessions sid = some s := h
  have h1 := lookupSession_update_of_some m.sessions sid
    (fun s => ({ s with state := .detached, detachedAt := some now }).clearDataCallbacks) s hlook
  have h2 := lookupSession_update_of_some
    (updateSession m.sessions sid
      (fun s => ({ s with state := .detached, detachedAt := some now }).clearDataCallbacks))
    sid
    (fun s => ({ s with state := .detached, detachedAt := some now2 }).clearDataCallbacks)
    _ h1
  refine ⟨?_, ?_, ?_, ?_⟩
  · unfold TerminalManager.detach
    rw [hlook]
  · unfold TerminalManager.detach
    rw [hlook]
    simp only []
    rw [h1]
  · unfold TerminalManager.detach
    rw [hlook]
    simp only []
    rw [h1]
    simp only []
    unfold TerminalManager.get
    rw [h2]
    simp [Session.clearDataCallbacks]
  · intro sid2 h2
    unfold TerminalManager.detach
    rw [show lookupSession m.sessions sid2 = none from h2]

/-- Witness for the amended C8 at a concrete registry. -/
theorem detach_repeat_amended_witness :
    (sampleManagerA.detach "s1" 5).1 = true ∧
    ((sampleManagerA.detach "s1" 5).2.detach "s1" 10).1 = true ∧
    ((sampleManagerA.detach "s1" 5).2.detach "s1" 10).2.get "s1" =
      some { sampleAttached with state := .detached, detachedAt := some 10, dataCallbacks := [] } ∧
    (∀ sid2, sampleManagerA.get sid2 = none →
      sampleManagerA.detach sid2 5 = (false, sampleManagerA)) :=
  detach_repeat_amended sampleManagerA "s1" 5 10 sampleAttached (by decide)

/-- C7 counterexample: `kill` removes the registry entry but does not
deregister the callbacks of the session.  The sample session carries the
one data callback and one exit callback the spawn handler of websocket.ts
registers; after `kill` returns true and `get` returns none, the session
object captured by the PTY closures (terminal.ts lines 122-138) still
invokes them: a late output chunk is forwarded to subscriber 0 and the
exit event raised by the kill itself is forwarded to subscriber 1, so
callbacks do fire for the session after the kill. -/
theorem kill_callbacks_counterexample :
    (sampleManagerA.kill "s1").1 = true ∧
    (sampleManagerA.kill "s1").2.get "s1" = none ∧
    (Session.ptyOutput sampleAttached "x").2 = [(0, "x")] ∧
    Session.ptyExit sampleAttached 0 = [(1, 0)] := by
  decide

/-- C7 amended: `kill` on a present session returns true and removes the
entry, so subsequent `get` returns none and `has` returns false, and
`kill` on an absent id returns false and changes nothing; but `kill` does
not clear the registered callbacks, so a PTY output or exit event
delivered to the captured session object after the kill still invokes
every callback registered at kill time. -/
theorem kill_removes_entry_amended (m : TerminalManager) (sid : String)
    (s : Session) (data : String) (code : Nat) (h : m.get sid = some s) :
    (m.kill sid).1 = true ∧
    (m.kill sid).2.get sid = none ∧
    (m.kill sid).2.has sid = false ∧
    (∀ sid2, m.get sid2 = none → m.kill sid2 = (false, m)) ∧
    (s.dataCallbacks ≠ [] → (Session.ptyOutput s data).2 ≠ []) ∧
    (s.exitCallbacks ≠ [] → Session.ptyExit s code ≠ []) := by
  have hlook : lookupSession m.sessions sid = some s := h
  refine ⟨?_, ?_, ?_, ?_, ?_, ?_⟩
  · unfold TerminalManager.kill
    rw [hlook]
  · unfold TerminalManager.kill
    rw [hlook]
    simp only []
    unfold TerminalManager.get
    exact lookupSession_remove_self m.sessions sid
  · unfold TerminalManager.kill
    rw [hlook]
    simp only []
    unfold TerminalManager.has
    rw [lookupSession_remove_self m.sessions sid]
    rfl
  · intro sid2 h2
    unfold TerminalManager.kill
    rw [show lookupSession m.sessions sid2 = none from h2]
  · intro hne
    simp [Session.ptyOutput, hne]
  · intro hne
    simp [Session.ptyExit, hne]

/-- Witness for the amended C7 at a concrete registry. -/
theorem kill_removes_entry_amended_witness :
    (sampleManagerA.kill "s1").1 = true ∧
    (sampleManagerA.kill "s1").2.get "s1" = none ∧
    (sampleManagerA.kill "s1").2.has "s1" = false ∧
    (∀ sid2, sampleManagerA.get sid2 = none →
      sampleManagerA.kill sid2 = (false, sampleManagerA)) ∧
    (sampleAttached.dataCallbacks ≠ [] →
      (Session.ptyOutput sampleAttached "x").2 ≠ []) ∧
    (sampleAttached.exitCallbacks ≠ [] → Session.ptyExit sampleAttached 0 ≠ []) :=
  kill_removes_entry_amended sampleManagerA "s1" sampleAttached "x" 0 (by decide)

/-- After the reattach handler runs for a present session, the data
callback list of that session is exactly the one fresh forwarder the
handler registered, whatever was registered before. -/
theorem handleReattach_callbacks (m : TerminalManager) (sid : String)
    (cQ rQ : Option Nat) (cb : Subscriber) (s : Session) (h : m.get sid = some s) :
    ((handleReattach m sid cQ rQ cb).1.get sid).map Session.dataCallbacks = some [cb] := by
  have hlook : lookupSession m.sessions sid = some s := h
  have h1 := lookupSession_update_of_some m.sessions sid
    (fun s => { s with state := .attached, detachedAt := none }) s hlook
  have hre : m.reattach sid = (some s.scrollback.getContents,
      { sessions := updateSession m.sessions sid
          (fun s => { s with state := .attached, detachedAt := none }) }) := by
    unfold TerminalManager.reattach
    rw [hlook]
  unfold handleReattach
  rw [hre]
  simp only []
  unfold TerminalManager.get
  rw [h1]
  simp only []
  rw [lookupSession_update_self, h1]
  simp only [Option.map_some']
  split
  · simp [Session.clearDataCallbacks, Session.onData, Session.resize]
  · simp [Session.clearDataCallbacks, Session.onData]

/-- C3: after the terminal reattach handler completes, exactly one
output-forwarding callback is registered on the session, and running the
handler a second time in quick succession again leaves exactly the one
callback registered by the latest run; hence a subsequent output chunk is
forwarded to the subscriber exactly once. -/
theorem reattach_handler_exactly_one_subscriber (m : TerminalManager) (sid : String)
    (c1 r1 c2 r2 : Option Nat) (cb cb2 : Subscriber) (data : String) (s : Session)
    (h : m.get sid = some s) :
    (((handleReattach m sid c1 r1 cb).1.get sid).map Session.dataCallbacks = some [cb]) ∧
    (((handleReattach (handleReattach m sid c1 r1 cb).1 sid c2 r2 cb2).1.get sid).map
        Session.dataCallbacks = some [cb2]) ∧
    (∀ s1, (handleReattach m sid c1 r1 cb).1.get sid = some s1 →
      (s1.ptyOutput data).2 = [(cb, data)]) := by
  have first := handleReattach_callbacks m sid c1 r1 cb s h
  obtain ⟨s1, hs1, hcb1⟩ := Option.map_eq_some'.mp first
  refine ⟨first, handleReattach_callbacks _ sid c2 r2 cb2 s1 hs1, ?_⟩
  intro s2 hs2
  have hss : s1 = s2 := Option.some.inj (hs1 ▸ hs2)
  subst hss
  simp [Session.ptyOutput, hcb1]

/-- Witness for C3 at a concrete registry. -/
theorem reattach_handler_exactly_one_subscriber_witness :
    (((handleReattach sampleManagerA "s1" none none 5).1.get "s1").map
        Session.dataCallbacks = some [5]) ∧
    (((handleReattach (handleReattach sampleManagerA "s1" none none 5).1 "s1"
        none none 6).1.get "s1").map Session.dataCallbacks = some [6]) ∧
    (∀ s1, (handleReattach sampleManagerA "s1" none none 5).1.get "s1" = some s1 →
      (s1.ptyOutput "x").2 = [(5, "x")]) :=
  reattach_handler_exactly_one_subscriber sampleManagerA "s1" none none none none
    5 6 "x" sampleAttached (by decide)

theorem countSystemInfo_append (a b : List ConnMsg) :
    countSystemInfo (a ++ b) = countSystemInfo a + countSystemInfo b := by
  simp [countSystemInfo, List.filter_append]

theorem countConnects_cons (e : SocketEvent) (rest : List SocketEvent) :
    countConnects (e :: rest) =
      (if e = SocketEvent.connect then 1 else 0) + countConnects rest := by
  by_cases h : e = SocketEvent.connect
  · subst h
    simp [countConnects, List.filter_cons]
    omega
  · simp [countConnects, List.filter_cons, h]

/-- C9: over any trace of delivered socket lifecycle events, the number of
system:info announcements emitted equals the number of entries into the
Connected state (delivered connect events): exactly one per successful
connect or reconnect, never zero and never two. -/
theorem system_info_once_per_connected_entry (st : ConnState) (events : List SocketEvent) :
    countSystemInfo (runConn st events).2 = countConnects events := by
  induction events generalizing st with
  | nil => rfl
  | cons e rest ih =>
    have hrun : runConn st (e :: rest) =
        ((runConn (connStep st e).1 rest).1,
          (connStep st e).2 ++ (runConn (connStep st e).1 rest).2) := rfl
    rw [hrun]
    simp only []
    rw [countSystemInfo_append, ih, countConnects_cons]
    cases e with
    | connect => simp [connStep, onConnect, countSystemInfo]
    | connectError => simp [connStep, onConnectError, countSystemInfo]
    | disconnect r => simp [connStep, onDisconnect, countSystemInfo]

end CloudForge
